import Mathlib

/-!
Verification of the fff.nvim indexing and scoring core (Rust sources under
src/lua/fff/rust) against its natural-language specification.

The Rust code is shallowly embedded: machine integers are modelled as Int
with explicit two's-complement wrapping (i32, i64) or saturating clamps
where the source uses wrapping or saturating operations; Rust String
comparison (lexicographic on UTF-8 bytes, which for valid UTF-8 coincides
with lexicographic comparison of unicode scalar values) is modelled as a
lexicographic comparison of the character list; external collaborators
(the approximate matcher, the unicode lowercasing table, the frecency
tracker, the lock / filesystem environment) are passed as explicit
parameters, following the external-interface contracts of the spec.
-/

/-! ## Machine integer helpers -/

/-- Two's-complement truncation of an integer to 32 bits, the semantics of
Rust `as i32` casts and of wrapping i32 arithmetic in release builds. -/
def wrap32 (n : Int) : Int :=
  (n + 2 ^ 31) % 2 ^ 32 - 2 ^ 31

/-- Two's-complement truncation of an integer to 64 bits (Rust `i64`
wrapping arithmetic). -/
def wrap64 (n : Int) : Int :=
  (n + 2 ^ 63) % 2 ^ 64 - 2 ^ 63

/-- Clamp an integer into the `i32` range, the result range of Rust
saturating i32 operations. -/
def clamp32 (n : Int) : Int :=
  max (-(2 ^ 31)) (min (2 ^ 31 - 1) n)

/-- Rust `i32::saturating_add`. -/
def satAdd32 (a b : Int) : Int :=
  clamp32 (a + b)

/-- Rust `i32::saturating_mul`. -/
def satMul32 (a b : Int) : Int :=
  clamp32 (a * b)

/-- An integer lies in the `i32` range. -/
def inI32 (n : Int) : Prop :=
  -(2 ^ 31) ≤ n ∧ n < 2 ^ 31

instance (n : Int) : Decidable (inI32 n) :=
  inferInstanceAs (Decidable (-(2 ^ 31) ≤ n ∧ n < 2 ^ 31))

theorem wrap32_eq_self {n : Int} (h : inI32 n) : wrap32 n = n := by
  obtain ⟨h1, h2⟩ := h
  unfold wrap32
  omega

theorem satAdd32_eq_add {a b : Int} (h : inI32 (a + b)) : satAdd32 a b = a + b := by
  obtain ⟨h1, h2⟩ := h
  unfold satAdd32 clamp32
  omega

theorem satMul32_eq_mul {a b : Int} (h : inI32 (a * b)) : satMul32 a b = a * b := by
  obtain ⟨h1, h2⟩ := h
  unfold satMul32 clamp32
  omega

/-- Rust `u64::wrapping_add(1)` on the generation counter. -/
def wrappingSucc64 (g : Nat) : Nat :=
  (g + 1) % 2 ^ 64

theorem wrappingSucc64_ne_self (g : Nat) : wrappingSucc64 g ≠ g := by
  unfold wrappingSucc64
  intro h
  rcases Nat.lt_or_ge (g + 1) (2 ^ 64) with hlt | hge
  · rw [Nat.mod_eq_of_lt hlt] at h
    omega
  · have hmod : (g + 1) % 2 ^ 64 < 2 ^ 64 := Nat.mod_lt _ (by norm_num)
    omega

/-! ## Rust string ordering

Rust compares `String`s lexicographically on UTF-8 bytes; for valid UTF-8
this equals lexicographic comparison of unicode scalar values, embedded
here on the character list of the Lean string. -/

/-- Lexicographic three-way comparison of character lists by scalar value:
the embedding of Rust `str::cmp`. -/
def cmpCharList : List Char → List Char → Ordering
  | [], [] => Ordering.eq
  | [], _ :: _ => Ordering.lt
  | _ :: _, [] => Ordering.gt
  | a :: as, b :: bs =>
    if a.toNat < b.toNat then Ordering.lt
    else if b.toNat < a.toNat then Ordering.gt
    else cmpCharList as bs

/-- The embedding of Rust `String::cmp`. -/
def cmpStr (a b : String) : Ordering :=
  cmpCharList a.data b.data

theorem cmpCharList_self (l : List Char) : cmpCharList l l = Ordering.eq := by
  induction l with
  | nil => rfl
  | cons a as ih => simp [cmpCharList, ih]

theorem char_eq_of_toNat_eq {c d : Char} (h : c.toNat = d.toNat) : c = d := by
  apply Char.ext
  apply UInt32.ext
  simpa [Char.toNat, UInt32.toNat] using h

theorem cmpCharList_eq_iff {l₁ l₂ : List Char} :
    cmpCharList l₁ l₂ = Ordering.eq ↔ l₁ = l₂ := by
  constructor
  · intro h
    induction l₁ generalizing l₂ with
    | nil => cases l₂ with
      | nil => rfl
      | cons b bs => simp [cmpCharList] at h
    | cons a as ih =>
      cases l₂ with
      | nil => simp [cmpCharList] at h
      | cons b bs =>
        simp only [cmpCharList] at h
        split_ifs at h with h1 h2
        have hab : a = b := char_eq_of_toNat_eq (by omega)
        rw [hab, ih h]
  · intro h
    rw [h]
    exact cmpCharList_self l₂

theorem cmpCharList_swap (l₁ l₂ : List Char) :
    cmpCharList l₂ l₁ = (cmpCharList l₁ l₂).swap := by
  induction l₁ generalizing l₂ with
  | nil => cases l₂ <;> rfl
  | cons a as ih =>
    cases l₂ with
    | nil => rfl
    | cons b bs =>
      simp only [cmpCharList]
      rcases Nat.lt_trichotomy a.toNat b.toNat with h | h | h
      · simp [h, Nat.lt_asymm h, Ordering.swap]
      · simp [h, Nat.lt_irrefl, ih bs]
      · simp [h, Nat.lt_asymm h, Ordering.swap]

theorem cmpCharList_cons_lt_iff {a b : Char} {as bs : List Char} :
    cmpCharList (a :: as) (b :: bs) = Ordering.lt ↔
      a.toNat < b.toNat ∨ (a.toNat = b.toNat ∧ cmpCharList as bs = Ordering.lt) := by
  simp only [cmpCharList]
  split_ifs with h1 h2
  · simp [h1]
  · simp; omega
  · have : a.toNat = b.toNat := by omega
    simp [this]

theorem cmpCharList_lt_trans {l₁ l₂ l₃ : List Char}
    (h12 : cmpCharList l₁ l₂ = Ordering.lt) (h23 : cmpCharList l₂ l₃ = Ordering.lt) :
    cmpCharList l₁ l₃ = Ordering.lt := by
  induction l₁ generalizing l₂ l₃ with
  | nil =>
    cases l₃ with
    | nil =>
      cases l₂ with
      | nil => exact h12
      | cons b bs => simp [cmpCharList] at h23
    | cons c cs => rfl
  | cons a as ih =>
    cases l₂ with
    | nil => simp [cmpCharList] at h12
    | cons b bs =>
      cases l₃ with
      | nil => simp [cmpCharList] at h23
      | cons c cs =>
        rw [cmpCharList_cons_lt_iff] at h12 h23 ⊢
        rcases h12 with h12 | ⟨h12e, h12t⟩
        · rcases h23 with h23 | ⟨h23e, _⟩
          · exact Or.inl (Nat.lt_trans h12 h23)
          · exact Or.inl (h23e ▸ h12)
        · rcases h23 with h23 | ⟨h23e, h23t⟩
          · exact Or.inl (h12e ▸ h23)
          · exact Or.inr ⟨h12e.trans h23e, ih h12t h23t⟩

theorem cmpStr_self (s : String) : cmpStr s s = Ordering.eq :=
  cmpCharList_self s.data

theorem cmpStr_eq_iff {a b : String} : cmpStr a b = Ordering.eq ↔ a = b := by
  unfold cmpStr
  rw [cmpCharList_eq_iff]
  constructor
  · intro h
    cases a; cases b
    exact congrArg String.mk (by simpa using h)
  · intro h; rw [h]

theorem cmpStr_lt_trans {a b c : String}
    (h1 : cmpStr a b = Ordering.lt) (h2 : cmpStr b c = Ordering.lt) :
    cmpStr a c = Ordering.lt :=
  cmpCharList_lt_trans h1 h2

theorem cmpStr_swap (a b : String) : cmpStr b a = (cmpStr a b).swap :=
  cmpCharList_swap a.data b.data

theorem cmpStr_gt_iff {a b : String} :
    cmpStr a b = Ordering.gt ↔ cmpStr b a = Ordering.lt := by
  rw [cmpStr_swap b a]
  cases hh : cmpStr b a <;> simp [Ordering.swap, hh]

theorem cmpStr_lt_ne {a b : String} (h : cmpStr a b = Ordering.lt) : a ≠ b := by
  intro he
  rw [he, cmpStr_self] at h
  exact absurd h (by simp)

/-- Rust `<=` on strings, used by the pre-sorted debug assertion of
`update_files`. -/
def strLe (a b : String) : Bool :=
  match cmpStr a b with
  | Ordering.gt => false
  | _ => true

/-! ## Git status (src/lua/fff/rust/git.rs)

A `git2::Status` is a u32 bit-flag set, modelled as a natural-number
bitmask with the flag values of libgit2. -/

def STATUS_CURRENT : Nat := 0

def STATUS_INDEX_NEW : Nat := 1

def STATUS_INDEX_MODIFIED : Nat := 2

def STATUS_INDEX_DELETED : Nat := 4

def STATUS_WT_NEW : Nat := 128

def STATUS_WT_MODIFIED : Nat := 256

def STATUS_WT_DELETED : Nat := 512

def STATUS_WT_RENAMED : Nat := 2048

def STATUS_IGNORED : Nat := 16384

/-- Bit-flag `contains`: every bit of the flag is set in the status. -/
def statusContains (status flag : Nat) : Bool :=
  status &&& flag = flag

/-- Bit-flag `intersects`: at least one bit of the flag is set. -/
def statusIntersects (status flag : Nat) : Bool :=
  status &&& flag ≠ 0

/-- Embeds `git::is_modified_status`. -/
def is_modified_status (status : Nat) : Bool :=
  statusIntersects status
    (STATUS_WT_MODIFIED ||| STATUS_INDEX_MODIFIED ||| STATUS_WT_NEW |||
      STATUS_INDEX_NEW ||| STATUS_WT_RENAMED)

/-- Embeds `git::format_git_status`. -/
def format_git_status (status : Option Nat) : String :=
  match status with
  | none => "clear"
  | some status =>
    if statusContains status STATUS_WT_NEW then "untracked"
    else if statusContains status STATUS_WT_MODIFIED then "modified"
    else if statusContains status STATUS_WT_DELETED then "deleted"
    else if statusContains status STATUS_WT_RENAMED then "renamed"
    else if statusContains status STATUS_INDEX_NEW then "staged_new"
    else if statusContains status STATUS_INDEX_MODIFIED then "staged_modified"
    else if statusContains status STATUS_INDEX_DELETED then "staged_deleted"
    else if statusContains status STATUS_IGNORED then "ignored"
    else if statusContains status STATUS_CURRENT || status == 0 then "clean"
    else "unknown"

/-- The eleven symbolic strings enumerated in spec section 4.1. -/
def gitStatusStrings : List String :=
  ["clear", "untracked", "modified", "deleted", "renamed", "staged_new",
   "staged_modified", "staged_deleted", "ignored", "clean", "unknown"]

/-- The spec's precedence table: working-tree states first, then index
states, then ignored, then clean; each entry pairs the flag whose presence
makes the label applicable with the label. -/
def gitStatusPrecedence : List (Nat × String) :=
  [(STATUS_WT_NEW, "untracked"), (STATUS_WT_MODIFIED, "modified"),
   (STATUS_WT_DELETED, "deleted"), (STATUS_WT_RENAMED, "renamed"),
   (STATUS_INDEX_NEW, "staged_new"), (STATUS_INDEX_MODIFIED, "staged_modified"),
   (STATUS_INDEX_DELETED, "staged_deleted"), (STATUS_IGNORED, "ignored"),
   (STATUS_CURRENT, "clean")]

/-- The spec's reading of `format_git_status`: no status means `clear`,
otherwise the label of the first applicable entry of the precedence table
(`unknown` if none applies). -/
def format_git_status_spec (status : Option Nat) : String :=
  match status with
  | none => "clear"
  | some s =>
    match gitStatusPrecedence.find? (fun p => statusContains s p.1) with
    | some p => p.2
    | none => "unknown"

/-! ## Data model (src/lua/fff/rust/types.rs)

Frecency scores are Rust `i64` values, modelled as `Int`; `size` and
`modified` are `u64`, modelled as `Nat`; paths are strings. The float-typed
filename-similarity configuration of the other `ScoringContext` copy is
unused by every embedded operation and is omitted. -/

structure FileItem where
  path : String
  relative_path : String
  file_name : String
  extension : String
  directory : String
  size : Nat
  modified : Nat
  access_frecency_score : Int
  modification_frecency_score : Int
  total_frecency_score : Int
  git_status : Option Nat
  is_current_file : Bool
deriving DecidableEq, Inhabited

/-- Per-hit score diagnostics; `relation_bonus` is carried for wire
compatibility and always emitted as 0 by the scorer. -/
structure Score where
  total : Int
  base_score : Int
  filename_bonus : Int
  special_filename_bonus : Int
  frecency_boost : Int
  distance_penalty : Int
  relation_bonus : Int
  match_type : String
deriving DecidableEq, Inhabited

/-- The scoring context as constructed by `fuzzy_search_with_snapshot` and
consumed by `match_and_score_files`. -/
structure ScoringContext where
  query : String
  max_typos : Nat
  max_threads : Nat
  current_file : Option String
deriving DecidableEq, Inhabited

structure SearchResult where
  items : List FileItem
  scores : List Score
  total_matched : Nat
  total_files : Nat
deriving DecidableEq, Inhabited

structure GitStatusCache where
  paths : List String
  statuses : List Nat
deriving DecidableEq, Inhabited

structure FileSnapshot where
  files : List FileItem
  generation : Nat
deriving DecidableEq, Inhabited

structure FileSync where
  files : List FileItem
  last_update : Nat
  git_status_cache : Option GitStatusCache
  scan_generation : Nat
deriving DecidableEq, Inhabited

structure ScanProgress where
  total_files : Nat
  scanned_files : Nat
  is_scanning : Bool
deriving DecidableEq, Inhabited

/-- One match returned by the external approximate matcher
(neo_frizbee); the score is a u16. -/
structure NeoMatch where
  index_in_haystack : Nat
  score : Nat
deriving DecidableEq, Inhabited

structure MatcherOptions where
  prefilter : Bool
  max_typos : Option Nat
  sort : Bool
deriving DecidableEq, Inhabited

/-- The external collaborators consumed by the scorer: the approximate
list matcher of spec section 6 and the unicode lowercasing table behind
Rust `str::to_lowercase`. -/
structure ExternalOps where
  match_list_parallel : String → List String → MatcherOptions → Nat → List NeoMatch
  to_lowercase : String → String

/-- The external frecency tracker interface of spec section 6, keyed by
relative path. -/
structure FrecencyTracker where
  get_access_score : String → Int
  get_modification_score : Nat → String → Int

/-! ## Path utilities (src/lua/fff/rust/path_utils.rs)

Unix `std::path::Path` semantics: a path splits on separators into
components; repeated separators are ignored; a current-directory token is
normalized away except at the start of a relative path; `parent` drops the
last component and is undefined for an empty path or a bare root. -/

inductive PathComponent where
  | rootDir : PathComponent
  | curDir : PathComponent
  | parentDir : PathComponent
  | normal (name : List Char) : PathComponent
deriving DecidableEq, Inhabited

/-- Split a character list at separator characters. -/
def splitOnSlash : List Char → List (List Char)
  | [] => [[]]
  | c :: rest =>
    if c = '/' then [] :: splitOnSlash rest
    else
      match splitOnSlash rest with
      | [] => [[c]]
      | g :: gs => (c :: g) :: gs

/-- Classify one non-empty, non-dot path fragment. -/
def classifyPart (p : List Char) : PathComponent :=
  if p = ['.', '.'] then PathComponent.parentDir else PathComponent.normal p

/-- The component list of a Unix path, as produced by
`std::path::Path::components`. -/
def pathComponents (s : String) : List PathComponent :=
  let parts := (splitOnSlash s.data).filter (fun p => p ≠ [])
  match s.data with
  | '/' :: _ =>
    PathComponent.rootDir :: (parts.filter (fun p => p ≠ ['.'])).map classifyPart
  | _ =>
    match parts with
    | [] => []
    | p :: ps =>
      if p = ['.'] then
        PathComponent.curDir :: (ps.filter (fun q => q ≠ ['.'])).map classifyPart
      else
        ((p :: ps).filter (fun q => q ≠ ['.'])).map classifyPart

/-- `std::path::Path::parent`, represented by the component list of the
parent path (`Path` equality compares component lists). `none` for the
empty path and for a bare root. -/
def pathParent (s : String) : Option (List PathComponent) :=
  let cs := pathComponents s
  if cs = [] then none
  else if cs = [PathComponent.rootDir] then none
  else some cs.dropLast

def isNormalComponent : PathComponent → Bool
  | PathComponent.normal _ => true
  | _ => false

/-- Length of the longest common prefix, the embedding of
`zip ... take_while eq ... count`. -/
def commonPrefixLen : List PathComponent → List PathComponent → Nat
  | a :: as, b :: bs => if a = b then commonPrefixLen as bs + 1 else 0
  | _, _ => 0

def MAX_PENALTY_LEVEL_MULTIPLIER : Int := 10

/-- Embeds `path_utils::calculate_directory_distance_penalty`. The `usize`
distance is cast `as i32` and i32 multiplications wrap, modelled by
`wrap32`. -/
def calculate_directory_distance_penalty
    (current_file : Option String) (candidate_path : String)
    (penalty_per_level : Int) : Int :=
  match current_file with
  | none => 0
  | some current_path_str =>
    match pathParent current_path_str with
    | none => 0
    | some current_dir =>
      match pathParent candidate_path with
      | none => 0
      | some candidate_dir =>
        if current_dir = candidate_dir then 0
        else
          let current_components := current_dir.filter isNormalComponent
          let candidate_components := candidate_dir.filter isNormalComponent
          let common_len := commonPrefixLen current_components candidate_components
          let current_depth_from_common := current_components.length - common_len
          let candidate_depth_from_common := candidate_components.length - common_len
          let total_distance := current_depth_from_common + candidate_depth_from_common
          if total_distance = 0 then 0
          else
            let penalty := wrap32 (wrap32 total_distance * penalty_per_level)
            if penalty_per_level < 0 then
              max penalty (wrap32 (penalty_per_level * MAX_PENALTY_LEVEL_MULTIPLIER))
            else
              min penalty (wrap32 (penalty_per_level * MAX_PENALTY_LEVEL_MULTIPLIER))

/-- Modelled from the spec: the two-argument `calculate_distance_penalty`
wrapper imported by the scorer is absent from the sources (only its
callers survive in this merged copy); per spec section 4.3 it is the
directory-distance penalty of section 4.2 with a configured per-level
penalty, here the `-2` used by the spec's scenario tests. -/
def DISTANCE_PENALTY_PER_LEVEL : Int := -2

/-- Modelled from the spec: see `DISTANCE_PENALTY_PER_LEVEL`. -/
def calculate_distance_penalty (current_file : Option String)
    (candidate_path : String) : Int :=
  calculate_directory_distance_penalty current_file candidate_path
    DISTANCE_PENALTY_PER_LEVEL

/-! ## Scorer (src/lua/fff/rust/score.rs) -/

def EXACT_FILENAME_BONUS_DIVISOR : Int := 5

def EXACT_FILENAME_BONUS_MULTIPLIER : Int := 2

def FUZZY_FILENAME_BONUS_DIVISOR : Int := 5

def SPECIAL_ENTRY_BONUS_PERCENT : Int := 18

/-- ASCII lowercase of one character (Rust u8 ascii folding lifted to the
character level, which agrees byte-for-byte on valid UTF-8). -/
def asciiLowerChar (c : Char) : Char :=
  if 65 ≤ c.toNat ∧ c.toNat ≤ 90 then Char.ofNat (c.toNat + 32) else c

/-- Embeds Rust `str::eq_ignore_ascii_case`. -/
def eqIgnoreAsciiCase (a b : String) : Bool :=
  a.data.map asciiLowerChar == b.data.map asciiLowerChar

def listIsPrefixOf : List Char → List Char → Bool
  | [], _ => true
  | _ :: _, [] => false
  | a :: as, b :: bs => a == b && listIsPrefixOf as bs

/-- Embeds Rust `str::contains` with a string pattern: some suffix of the
haystack starts with the needle. -/
def listContainsSub (needle : List Char) : List Char → Bool
  | [] => listIsPrefixOf needle []
  | c :: rest => listIsPrefixOf needle (c :: rest) || listContainsSub needle rest

/-- Embeds `score::is_special_entry_point_file`. -/
def is_special_entry_point_file (filename : String) : Bool :=
  filename = "mod.rs" || filename = "lib.rs" || filename = "main.rs" ||
  filename = "index.js" || filename = "index.jsx" || filename = "index.ts" ||
  filename = "index.tsx" || filename = "index.mjs" || filename = "index.cjs" ||
  filename = "index.vue" || filename = "__init__.py" || filename = "__main__.py" ||
  filename = "main.go" || filename = "main.c" || filename = "index.php" ||
  filename = "main.rb" || filename = "index.rb"

/-- Embeds `score::calculate_filename_bonus`; i32 division truncates toward
zero (`Int.tdiv`), and the entry-point product wraps as i32. -/
def calculate_filename_bonus (ext : ExternalOps) (query filename : String)
    (base_score : Int) : Int × String × Bool :=
  if eqIgnoreAsciiCase filename query then
    (Int.tdiv base_score EXACT_FILENAME_BONUS_DIVISOR * EXACT_FILENAME_BONUS_MULTIPLIER,
     "exact_filename", false)
  else if listContainsSub (ext.to_lowercase query).data (ext.to_lowercase filename).data then
    (Int.tdiv base_score FUZZY_FILENAME_BONUS_DIVISOR, "fuzzy_filename", false)
  else if is_special_entry_point_file filename then
    (Int.tdiv (wrap32 (base_score * SPECIAL_ENTRY_BONUS_PERCENT)) 100, "fuzzy_path", true)
  else
    (0, "fuzzy_path", false)

/-- Embeds `score::calculate_file_bonus` (the current-file demotion of the
short-query path). -/
def calculate_file_bonus (file : FileItem) (context : ScoringContext) : Int :=
  match context.current_file with
  | some current =>
    if file.relative_path = current then
      -(match file.git_status with
        | some status => if is_modified_status status then 150 else 300
        | none => 300)
    else 0
  | none => 0

/-- Embeds `score::score_all_by_frecency`: the i64 frecency scores are cast
`as i32` (`wrap32`), the ×4 product saturates, the outer additions are a
wrapping i32 `+` and saturating adds. -/
def score_all_by_frecency (files : List FileItem) (context : ScoringContext) :
    List (Nat × Score) :=
  files.enum.map (fun p =>
    let idx := p.1
    let file := p.2
    let total_frecency_score :=
      wrap32 (wrap32 file.access_frecency_score +
        satMul32 (wrap32 file.modification_frecency_score) 4)
    let distance_penalty :=
      calculate_distance_penalty context.current_file file.relative_path
    let total :=
      satAdd32 (satAdd32 total_frecency_score distance_penalty)
        (calculate_file_bonus file context)
    (idx,
     { total := total
       base_score := 0
       filename_bonus := 0
       special_filename_bonus := 0
       frecency_boost := total_frecency_score
       distance_penalty := distance_penalty
       relation_bonus := 0
       match_type := "frecency" }))

/-- The per-match score assembly of the main path of
`match_and_score_files`; the u16 match score is the i32 base score. -/
def buildMatchScore (ext : ExternalOps) (context : ScoringContext)
    (files : List FileItem) (m : NeoMatch) : Nat × Score :=
  let file_idx := m.index_in_haystack
  let file := files.getD file_idx default
  let base_score : Int := (m.score : Int)
  let frecency_boost :=
    Int.tdiv (satMul32 base_score (wrap32 file.total_frecency_score)) 100
  let distance_penalty :=
    calculate_distance_penalty context.current_file file.relative_path
  let fb := calculate_filename_bonus ext context.query file.file_name base_score
  let filename_bonus := fb.1
  let match_type := fb.2.1
  let has_special_bonus := fb.2.2
  let total :=
    satAdd32 (satAdd32 (satAdd32 base_score frecency_boost) distance_penalty)
      filename_bonus
  (file_idx,
   { total := total
     base_score := base_score
     filename_bonus := filename_bonus
     special_filename_bonus := if has_special_bonus then filename_bonus else 0
     frecency_boost := frecency_boost
     distance_penalty := distance_penalty
     relation_bonus := 0
     match_type := match_type })

/-- Embeds `score::match_and_score_files`: short queries fall back to pure
frecency scoring; otherwise the external matcher runs over the relative
paths and each hit is scored, then the list is sorted by descending
total. -/
def match_and_score_files (ext : ExternalOps) (files : List FileItem)
    (context : ScoringContext) : List (Nat × Score) :=
  if context.query.utf8ByteSize < 2 then
    score_all_by_frecency files context
  else if files.isEmpty then
    []
  else
    let options : MatcherOptions :=
      { prefilter := true, max_typos := some context.max_typos, sort := false }
    let haystack := files.map (fun f => f.relative_path)
    let path_matches :=
      ext.match_list_parallel context.query haystack options context.max_threads
    let results := path_matches.map (buildMatchScore ext context files)
    results.mergeSort (fun a b => decide (b.2.total ≤ a.2.total))

/-! ## File index core (src/lua/fff/rust/file_picker/core.rs) -/

/-- Rust slice `binary_search_by`, fuelled: the interval halves each step,
so fuel `length + 1` always suffices. Returns the found index or the
insertion position. -/
def binarySearchGo {α : Type} [Inhabited α] (cmp : α → Ordering) (l : List α) :
    Nat → Nat → Nat → Except Nat Nat
  | 0, left, _right => Except.error left
  | Nat.succ fuel, left, right =>
    if left < right then
      let mid := left + (right - left) / 2
      match cmp (l.getD mid default) with
      | Ordering.lt => binarySearchGo cmp l fuel (mid + 1) right
      | Ordering.gt => binarySearchGo cmp l fuel left mid
      | Ordering.eq => Except.ok mid
    else Except.error left

def binarySearchBy {α : Type} [Inhabited α] (l : List α) (cmp : α → Ordering) :
    Except Nat Nat :=
  binarySearchGo cmp l (l.length + 1) 0 l.length

def FileSync.new : FileSync :=
  { files := [], last_update := 0, git_status_cache := none, scan_generation := 0 }

/-- Embeds `FileSync::find_file_index`. -/
def find_file_index (s : FileSync) (path : String) : Except Nat Nat :=
  binarySearchBy s.files (fun file => cmpStr file.relative_path path)

/-- Embeds `FileSync::contains_path`. -/
def contains_path (s : FileSync) (path : String) : Bool :=
  match find_file_index s path with
  | Except.ok _ => true
  | Except.error _ => false

/-- Embeds `FileSync::batch_update_frecency_scores`; the global FRECENCY
tracker is an explicit parameter (`none` both for a missing tracker and for
a failed read of its lock, which leave the scores as they are). -/
def batch_update_frecency_scores (tracker : Option FrecencyTracker)
    (s : FileSync) : FileSync :=
  match tracker with
  | none => s
  | some t =>
    { s with
      files := s.files.map (fun file =>
        let a := t.get_access_score file.relative_path
        let m := t.get_modification_score file.modified
          (format_git_status file.git_status)
        { file with
          access_frecency_score := a
          modification_frecency_score := m
          total_frecency_score := wrap64 (a + m) }) }

/-- The adjacent-pairs check of the `debug_assert!` in
`FileSync::update_files` (`files.windows(2).all(...)` over `<=` on
relative paths). -/
def filesPreSorted : List FileItem → Bool
  | a :: b :: rest => strLe a.relative_path b.relative_path && filesPreSorted (b :: rest)
  | _ => true

/-- The pre-sorted input assertion of `FileSync::update_files`. -/
def updateFilesAssert (files : List FileItem) : Prop :=
  filesPreSorted files = true

instance (files : List FileItem) : Decidable (updateFilesAssert files) :=
  inferInstanceAs (Decidable (filesPreSorted files = true))

/-- Embeds `FileSync::update_files` (`now` stands for `SystemTime::now`). -/
def update_files (tracker : Option FrecencyTracker) (now : Nat) (s : FileSync)
    (files : List FileItem) (git_status_cache : Option GitStatusCache) : FileSync :=
  batch_update_frecency_scores tracker
    { s with
      files := files
      git_status_cache := git_status_cache
      last_update := now
      scan_generation := wrappingSucc64 s.scan_generation }

/-- Embeds `FileSync::prepare_files_for_update` (a stable sort by relative
path, as Rust `sort_by`). -/
def prepare_files_for_update (files : List FileItem) : List FileItem :=
  files.mergeSort (fun a b => strLe a.relative_path b.relative_path)

/-- Embeds `FileSync::insert_file_sorted`. -/
def insert_file_sorted (s : FileSync) (file : FileItem) : FileSync :=
  match binarySearchBy s.files (fun f => cmpStr f.relative_path file.relative_path) with
  | Except.ok _ => s
  | Except.error pos =>
    { s with
      files := s.files.insertIdx pos file
      scan_generation := wrappingSucc64 s.scan_generation }

/-- Embeds `FileSync::remove_file_by_path`, returning the new state and
whether a removal happened. -/
def remove_file_by_path (s : FileSync) (path : String) : FileSync × Bool :=
  match find_file_index s path with
  | Except.ok index =>
    ({ s with
       files := s.files.eraseIdx index
       scan_generation := wrappingSucc64 s.scan_generation }, true)
  | Except.error _ => (s, false)

/-- Embeds `FileSync::create_search_snapshot`. -/
def create_search_snapshot (s : FileSync) : FileSnapshot :=
  { files := s.files, generation := s.scan_generation }

/-- Embeds `try_read_snapshot_with_timeout`: `tryRead n` is the outcome of
the lock attempt after `n` one-millisecond sleeps; the loop errors once the
elapsed time exceeds the 100 ms timeout, so attempts 0 through 101 can
run. -/
def tryReadLoop (tryRead : Nat → Option FileSnapshot) :
    Nat → Nat → Except String FileSnapshot
  | 0, _ => Except.error "Timeout acquiring read lock on snapshot"
  | Nat.succ fuel, n =>
    match tryRead n with
    | some guard => Except.ok guard
    | none =>
      if 100 < n then Except.error "Timeout acquiring read lock on snapshot"
      else tryReadLoop tryRead fuel (n + 1)

def try_read_snapshot_with_timeout (tryRead : Nat → Option FileSnapshot) :
    Except String FileSnapshot :=
  tryReadLoop tryRead 102 0

/-- The ranking comparator of `fuzzy_search_with_snapshot`: no later entry
beats an earlier one on (total descending, modified descending). -/
def rankLe (files : List FileItem) (a b : Nat × Score) : Bool :=
  b.2.total < a.2.total ||
    (b.2.total == a.2.total &&
      decide ((files.getD b.1 default).modified ≤ (files.getD a.1 default).modified))

/-- Embeds `fuzzy_search_with_snapshot`: bounded-retry snapshot read (empty
result on timeout), scoring, parallel sort by descending total with the
modified-time tie-break, truncation to `max_results`, and materialisation
of the item/score pairs. -/
def fuzzy_search_with_snapshot (ext : ExternalOps)
    (tryRead : Nat → Option FileSnapshot) (query : String)
    (max_results max_threads : Nat) (current_file : Option String) : SearchResult :=
  let max_threads := Nat.max max_threads 1
  match try_read_snapshot_with_timeout tryRead with
  | Except.error _ => { items := [], scores := [], total_matched := 0, total_files := 0 }
  | Except.ok snapshot =>
    let total_files := snapshot.files.length
    let max_typos := Nat.min (Nat.max ((query.utf8ByteSize % 2 ^ 16) / 4) 2) 6
    let context : ScoringContext :=
      { query := query, max_typos := max_typos, max_threads := max_threads,
        current_file := current_file }
    let scored_indices := match_and_score_files ext snapshot.files context
    let total_matched := scored_indices.length
    let scored_results := scored_indices.mergeSort (rankLe snapshot.files)
    let truncated := scored_results.take max_results
    { items := truncated.map (fun p => snapshot.files.getD p.1 default)
      scores := truncated.map (fun p => p.2)
      total_matched := total_matched
      total_files := total_files }

/-! ## Picker facade paths (src/lua/fff/rust/file_picker_main.rs and
src/lua/fff/rust/file_picker/watcher.rs) -/

/-- Embeds `FilePicker::get_scan_progress`: the argument is the outcome of
reading the index lock. -/
def get_scan_progress (lockResult : Option FileSync) (is_scanning : Bool) :
    ScanProgress :=
  match lockResult with
  | some sync_data =>
    { total_files := sync_data.files.length
      scanned_files := sync_data.files.length
      is_scanning := is_scanning }
  | none => { total_files := 0, scanned_files := 0, is_scanning := is_scanning }

/-- The index update performed by `FilePicker::trigger_rescan` on a scan
result: the scanned files are passed to `update_files` directly. -/
def trigger_rescan_index_update (tracker : Option FrecencyTracker) (now : Nat)
    (scanned : List FileItem) (git_cache : Option GitStatusCache)
    (s : FileSync) : FileSync :=
  update_files tracker now s scanned git_cache

/-- The index update performed by the initial scan of
`spawn_background_watcher`: the scan result goes through
`prepare_files_for_update` before `update_files`. -/
def background_scan_index_update (tracker : Option FrecencyTracker) (now : Nat)
    (scanned : List FileItem) (git_cache : Option GitStatusCache)
    (s : FileSync) : FileSync :=
  update_files tracker now s (prepare_files_for_update scanned) git_cache

/-! ## Operation sequences over the index -/

/-- One public mutation of the file index. -/
inductive IndexOp where
  | insert (file : FileItem) : IndexOp
  | remove (path : String) : IndexOp
  | update (files : List FileItem) (git_cache : Option GitStatusCache) : IndexOp

def applyOp (tracker : Option FrecencyTracker) (now : Nat) (s : FileSync) :
    IndexOp → FileSync
  | IndexOp.insert file => insert_file_sorted s file
  | IndexOp.remove path => (remove_file_by_path s path).1
  | IndexOp.update files git_cache => update_files tracker now s files git_cache

def runOps (tracker : Option FrecencyTracker) (now : Nat)
    (ops : List IndexOp) : FileSync :=
  ops.foldl (applyOp tracker now) FileSync.new

/-- The index invariant: the file sequence is strictly ordered by relative
path. -/
def strictlySortedByPath (files : List FileItem) : Prop :=
  List.Pairwise (fun a b => cmpStr a.relative_path b.relative_path = Ordering.lt) files

/-- Boolean strict path ordering of one file against another. -/
def pathLtB (a b : FileItem) : Bool :=
  match cmpStr a.relative_path b.relative_path with
  | Ordering.lt => true
  | _ => false

theorem pathLtB_iff {a b : FileItem} :
    pathLtB a b = true ↔ cmpStr a.relative_path b.relative_path = Ordering.lt := by
  unfold pathLtB
  cases h : cmpStr a.relative_path b.relative_path <;> simp

/-- Executable mirror of `strictlySortedByPath`. -/
def pairwiseLtB : List FileItem → Bool
  | [] => true
  | a :: rest => rest.all (pathLtB a) && pairwiseLtB rest

theorem pairwiseLtB_iff (files : List FileItem) :
    pairwiseLtB files = true ↔ strictlySortedByPath files := by
  induction files with
  | nil => simp [pairwiseLtB, strictlySortedByPath]
  | cons a rest ih =>
    simp only [pairwiseLtB, strictlySortedByPath, List.pairwise_cons,
      Bool.and_eq_true, List.all_eq_true]
    rw [show (List.Pairwise (fun x y : FileItem =>
      cmpStr x.relative_path y.relative_path = Ordering.lt) rest) =
      strictlySortedByPath rest from rfl, ← ih]
    constructor
    · rintro ⟨h1, h2⟩
      exact ⟨fun b hb => pathLtB_iff.mp (h1 b hb), h2⟩
    · rintro ⟨h1, h2⟩
      exact ⟨fun b hb => pathLtB_iff.mpr (h1 b hb), h2⟩

instance (files : List FileItem) : Decidable (strictlySortedByPath files) :=
  decidable_of_iff (pairwiseLtB files = true) (pairwiseLtB_iff files)

/-- The caller obligation of `update_files`: its input is strictly sorted
with no duplicate relative paths. -/
def opInputSorted : IndexOp → Prop
  | IndexOp.update files _ => strictlySortedByPath files
  | _ => True

instance (op : IndexOp) : Decidable (opInputSorted op) :=
  match op with
  | IndexOp.insert _ => inferInstanceAs (Decidable True)
  | IndexOp.remove _ => inferInstanceAs (Decidable True)
  | IndexOp.update files _ => inferInstanceAs (Decidable (strictlySortedByPath files))

/-! ## Binary search correctness -/

/-- What a binary-search outcome means: a found index points at an exact
match, an insertion position splits the list into strictly-smaller and
strictly-greater parts. -/
def binarySearchOutcome {α : Type} [Inhabited α] (cmp : α → Ordering)
    (l : List α) : Except Nat Nat → Prop
  | Except.ok i => i < l.length ∧ cmp (l.getD i default) = Ordering.eq
  | Except.error p =>
    p ≤ l.length ∧ (∀ i, i < p → cmp (l.getD i default) = Ordering.lt) ∧
      (∀ i, p ≤ i → i < l.length → cmp (l.getD i default) = Ordering.gt)

theorem binarySearchGo_spec {α : Type} [Inhabited α] (cmp : α → Ordering)
    (l : List α)
    (hlt : ∀ i j, i ≤ j → j < l.length →
      cmp (l.getD j default) = Ordering.lt → cmp (l.getD i default) = Ordering.lt)
    (hgt : ∀ i j, i ≤ j → j < l.length →
      cmp (l.getD i default) = Ordering.gt → cmp (l.getD j default) = Ordering.gt) :
    ∀ (fuel left right : Nat), left ≤ right → right ≤ l.length →
      right - left < fuel →
      (∀ i, i < left → cmp (l.getD i default) = Ordering.lt) →
      (∀ i, right ≤ i → i < l.length → cmp (l.getD i default) = Ordering.gt) →
      binarySearchOutcome cmp l (binarySearchGo cmp l fuel left right) := by
  intro fuel
  induction fuel with
  | zero => intro left right _ _ hf _ _; omega
  | succ fuel ih =>
    intro left right hlr hrlen hf hL hR
    simp only [binarySearchGo]
    split_ifs with hcond
    · have hmid_lt : left + (right - left) / 2 < right := by omega
      have hmid_len : left + (right - left) / 2 < l.length := by omega
      rcases hc : cmp (l.getD (left + (right - left) / 2) default) with _ | _ | _
      · -- lt: move left past mid
        simp only [hc]
        apply ih _ right (by omega) hrlen (by omega)
        · intro i hi
          exact hlt i (left + (right - left) / 2) (by omega) hmid_len hc
        · exact hR
      · -- eq: found
        simp only [hc]
        exact ⟨hmid_len, hc⟩
      · -- gt: move right down to mid
        simp only [hc]
        apply ih left _ (by omega) (by omega) (by omega) hL
        intro i hi hilen
        exact hgt (left + (right - left) / 2) i hi hilen hc
    · exact ⟨by omega, fun i hi => hL i (by omega), fun i hpi hilen => hR i (by omega) hilen⟩

theorem binarySearchBy_spec {α : Type} [Inhabited α] (cmp : α → Ordering)
    (l : List α)
    (hlt : ∀ i j, i ≤ j → j < l.length →
      cmp (l.getD j default) = Ordering.lt → cmp (l.getD i default) = Ordering.lt)
    (hgt : ∀ i j, i ≤ j → j < l.length →
      cmp (l.getD i default) = Ordering.gt → cmp (l.getD j default) = Ordering.gt) :
    binarySearchOutcome cmp l (binarySearchBy l cmp) := by
  apply binarySearchGo_spec cmp l hlt hgt (l.length + 1) 0 l.length
    (Nat.zero_le _) (Nat.le_refl _) (by omega)
  · intro i hi; omega
  · intro i hi hilen; omega

/-- The two monotonicity facts of path-keyed search on a strictly sorted
file list, packaged for `binarySearchBy_spec`. -/
theorem binarySearch_path_spec {files : List FileItem} (target : String)
    (hs : strictlySortedByPath files) :
    binarySearchOutcome (fun f => cmpStr f.relative_path target) files
      (binarySearchBy files (fun f => cmpStr f.relative_path target)) := by
  have hpw := List.pairwise_iff_getElem.mp hs
  apply binarySearchBy_spec
  · intro i j hij hjlen hj
    rcases Nat.eq_or_lt_of_le hij with he | hl
    · rw [he]; exact hj
    · rw [List.getD_eq_getElem files default hjlen] at hj
      rw [List.getD_eq_getElem files default (by omega)]
      exact cmpStr_lt_trans (hpw i j (by omega) hjlen hl) hj
  · intro i j hij hjlen hi
    rcases Nat.eq_or_lt_of_le hij with he | hl
    · rw [← he]; exact hi
    · rw [List.getD_eq_getElem files default (by omega)] at hi
      rw [List.getD_eq_getElem files default hjlen]
      rw [cmpStr_gt_iff] at hi ⊢
      exact cmpStr_lt_trans hi (hpw i j (by omega) hjlen hl)

/-! ## Preservation of the sortedness invariant -/

theorem insertIdx_eq_take_drop {α : Type} (a : α) :
    ∀ (n : Nat) (l : List α), n ≤ l.length →
      l.insertIdx n a = l.take n ++ a :: l.drop n := by
  intro n
  induction n with
  | zero => intro l _; simp [List.insertIdx_zero]
  | succ n ih =>
    intro l hl
    cases l with
    | nil => simp at hl
    | cons b bs =>
      simp only [List.insertIdx_succ_cons, List.take_succ_cons, List.drop_succ_cons,
        List.cons_append]
      rw [ih bs (by simpa using hl)]

theorem pairwise_insertIdx {α : Type} {R : α → α → Prop} {l : List α} {a : α}
    {p : Nat} (hp : p ≤ l.length) (hl : List.Pairwise R l)
    (hbefore : ∀ i (h : i < l.length), i < p → R l[i] a)
    (hafter : ∀ i (h : i < l.length), p ≤ i → R a l[i]) :
    List.Pairwise R (l.insertIdx p a) := by
  rw [insertIdx_eq_take_drop a p l hp]
  rw [List.pairwise_append]
  refine ⟨hl.take, ?_, ?_⟩
  · constructor
    · intro b hb
      rw [List.mem_iff_getElem] at hb
      obtain ⟨j, hj, rfl⟩ := hb
      rw [List.getElem_drop]
      exact hafter (p + j) (by simp at hj; omega) (by omega)
    · exact hl.drop
  · intro x hx b hb
    rw [List.mem_take_iff_getElem] at hx
    obtain ⟨i, hi, rfl⟩ := hx
    rcases List.mem_cons.mp hb with rfl | hb'
    · exact hbefore i (by simp at hi; omega) (by simp at hi; omega)
    · rw [List.mem_iff_getElem] at hb'
      obtain ⟨j, hj, rfl⟩ := hb'
      rw [List.getElem_drop]
      have hlen : p + j < l.length := by simp at hj; omega
      exact List.pairwise_iff_getElem.mp hl i (p + j) (by simp at hi; omega) hlen
        (by simp at hi; omega)

theorem insert_file_sorted_preserves (s : FileSync) (file : FileItem)
    (h : strictlySortedByPath s.files) :
    strictlySortedByPath (insert_file_sorted s file).files := by
  unfold insert_file_sorted
  have hspec := binarySearch_path_spec file.relative_path h
  rcases hres : binarySearchBy s.files
      (fun f => cmpStr f.relative_path file.relative_path) with p | i
  · -- error: insertion at p
    rw [hres] at hspec
    obtain ⟨hp, hbef, haft⟩ := hspec
    simp only []
    apply pairwise_insertIdx hp h
    · intro i hi hip
      have := hbef i hip
      rwa [List.getD_eq_getElem s.files default hi] at this
    · intro i hi hpi
      have := haft i hpi hi
      rw [List.getD_eq_getElem s.files default hi] at this
      rw [cmpStr_gt_iff] at this
      exact this
  · exact h

theorem remove_file_by_path_preserves (s : FileSync) (path : String)
    (h : strictlySortedByPath s.files) :
    strictlySortedByPath (remove_file_by_path s path).1.files := by
  unfold remove_file_by_path
  rcases find_file_index s path with p | i
  · exact h
  · exact List.Pairwise.sublist (List.eraseIdx_sublist s.files i) h

theorem batch_update_preserves (tracker : Option FrecencyTracker) (s : FileSync)
    (h : strictlySortedByPath s.files) :
    strictlySortedByPath (batch_update_frecency_scores tracker s).files := by
  unfold batch_update_frecency_scores
  cases tracker with
  | none => exact h
  | some t =>
    simp only [strictlySortedByPath, List.pairwise_map]
    exact h

theorem update_files_preserves (tracker : Option FrecencyTracker) (now : Nat)
    (s : FileSync) (files : List FileItem) (cache : Option GitStatusCache)
    (h : strictlySortedByPath files) :
    strictlySortedByPath (update_files tracker now s files cache).files := by
  unfold update_files
  exact batch_update_preserves tracker _ h

theorem applyOp_preserves (tracker : Option FrecencyTracker) (now : Nat)
    (s : FileSync) (op : IndexOp) (hs : strictlySortedByPath s.files)
    (hop : opInputSorted op) :
    strictlySortedByPath (applyOp tracker now s op).files := by
  cases op with
  | insert file => exact insert_file_sorted_preserves s file hs
  | remove path => exact remove_file_by_path_preserves s path hs
  | update files cache => exact update_files_preserves tracker now s files cache hop

theorem runOps_sorted (tracker : Option FrecencyTracker) (now : Nat)
    (ops : List IndexOp) (hops : ∀ op ∈ ops, opInputSorted op) :
    strictlySortedByPath (runOps tracker now ops).files := by
  unfold runOps
  have key : ∀ (l : List IndexOp) (s : FileSync), strictlySortedByPath s.files →
      (∀ op ∈ l, opInputSorted op) →
      strictlySortedByPath (l.foldl (applyOp tracker now) s).files := by
    intro l
    induction l with
    | nil => intro s hs _; exact hs
    | cons op rest ih =>
      intro s hs hl
      simp only [List.foldl_cons]
      exact ih _ (applyOp_preserves tracker now s op hs (hl op (by simp)))
        (fun o ho => hl o (by simp [ho]))
  exact key ops FileSync.new (by simp [FileSync.new, strictlySortedByPath]) hops

theorem strictlySorted_nodup {files : List FileItem}
    (h : strictlySortedByPath files) :
    (files.map (fun f => f.relative_path)).Nodup := by
  rw [List.nodup_iff_sublist]
  intro a hsub
  have hpw : List.Pairwise (fun x y : String => cmpStr x y = Ordering.lt)
      (files.map (fun f => f.relative_path)) := by
    rw [List.pairwise_map]
    exact h
  have := List.Pairwise.sublist hsub hpw
  rcases List.pairwise_cons.mp this with ⟨hrel, _⟩
  exact cmpStr_lt_ne (hrel a (by simp)) rfl

/-- On a sorted index, the binary search of `find_file_index` succeeds
exactly when the path is present. -/
theorem find_file_index_ok_iff (s : FileSync) (path : String)
    (hs : strictlySortedByPath s.files) :
    (∃ i, find_file_index s path = Except.ok i) ↔
      path ∈ s.files.map (fun f => f.relative_path) := by
  have hspec := binarySearch_path_spec path hs
  constructor
  · rintro ⟨i, hi⟩
    rw [show binarySearchBy s.files (fun f => cmpStr f.relative_path path) =
      find_file_index s path from rfl, hi] at hspec
    obtain ⟨hlen, heq⟩ := hspec
    rw [List.getD_eq_getElem s.files default hlen] at heq
    rw [cmpStr_eq_iff] at heq
    rw [List.mem_map]
    exact ⟨s.files[i], List.getElem_mem hlen, heq⟩
  · intro hmem
    rcases hres : find_file_index s path with p | i
    · rw [show binarySearchBy s.files (fun f => cmpStr f.relative_path path) =
        find_file_index s path from rfl, hres] at hspec
      obtain ⟨hp, hbef, haft⟩ := hspec
      rw [List.mem_map] at hmem
      obtain ⟨f, hf, hfe⟩ := hmem
      rw [List.mem_iff_getElem] at hf
      obtain ⟨j, hj, rfl⟩ := hf
      exfalso
      rcases Nat.lt_or_ge j p with hjp | hjp
      · have h1 := hbef j hjp
        rw [List.getD_eq_getElem s.files default hj] at h1
        have h2 : cmpStr (s.files[j]).relative_path path = Ordering.lt := h1
        rw [hfe, cmpStr_self] at h2
        simp at h2
      · have h1 := haft j hjp hj
        rw [List.getD_eq_getElem s.files default hj] at h1
        have h2 : cmpStr (s.files[j]).relative_path path = Ordering.gt := h1
        rw [hfe, cmpStr_self] at h2
        simp at h2
    · exact ⟨i, rfl⟩

/-- The bounded retry of the snapshot read yields the timeout error when
every lock attempt within the retry budget fails. -/
theorem tryReadLoop_all_fail (tryRead : Nat → Option FileSnapshot)
    (hfail : ∀ m, m ≤ 101 → tryRead m = none) :
    ∀ (fuel n : Nat), n ≤ 101 →
      tryReadLoop tryRead fuel n =
        Except.error "Timeout acquiring read lock on snapshot" := by
  intro fuel
  induction fuel with
  | zero => intro n _; rfl
  | succ fuel ih =>
    intro n hn
    simp only [tryReadLoop, hfail n hn]
    split_ifs with h100
    · rfl
    · exact ih (n + 1) (by omega)

/-- `commonPrefixLen` is symmetric. -/
theorem commonPrefixLen_comm (l₁ l₂ : List PathComponent) :
    commonPrefixLen l₁ l₂ = commonPrefixLen l₂ l₁ := by
  induction l₁ generalizing l₂ with
  | nil => cases l₂ <;> rfl
  | cons a as ih =>
    cases l₂ with
    | nil => rfl
    | cons b bs =>
      simp only [commonPrefixLen]
      by_cases hab : a = b
      · simp [hab, ih bs]
      · have hba : ¬ b = a := fun h => hab h.symm
        simp [hab, hba]

/-! ## Claims -/

/-- Claim C8: for every input (including no status at all),
`format_git_status` returns exactly one of the eleven symbolic strings, and
it is the label of the first applicable rule in the spec's precedence order
(working-tree states first, then index states, then ignored, then
clean). -/
theorem c8_format_git_status_total :
    ∀ status : Option Nat,
      format_git_status status ∈ gitStatusStrings ∧
        format_git_status status = format_git_status_spec status := by
  intro status
  cases status with
  | none => exact ⟨by simp [format_git_status, gitStatusStrings], rfl⟩
  | some s =>
    have hzero : statusContains s STATUS_CURRENT = true := by
      simp [statusContains, STATUS_CURRENT]
    constructor
    · simp only [format_git_status]
      split_ifs <;> simp [gitStatusStrings]
    · simp only [format_git_status, format_git_status_spec, gitStatusPrecedence,
        List.find?, hzero]
      split_ifs <;> simp_all

/-- Claim C9: the directory-distance penalty of a path against itself is
zero, and the penalty is symmetric in the two paths, for every per-level
penalty value. -/
theorem c9_distance_penalty_self_zero_and_symm :
    (∀ (x : String) (p : Int),
      calculate_directory_distance_penalty (some x) x p = 0) ∧
    (∀ (a b : String) (p : Int),
      calculate_directory_distance_penalty (some a) b p =
        calculate_directory_distance_penalty (some b) a p) := by
  constructor
  · intro x p
    simp only [calculate_directory_distance_penalty]
    cases hx : pathParent x with
    | none => rfl
    | some d => simp
  · intro a b p
    simp only [calculate_directory_distance_penalty]
    cases hpa : pathParent a with
    | none =>
      cases hpb : pathParent b with
      | none => rfl
      | some db => rfl
    | some da =>
      cases hpb : pathParent b with
      | none => rfl
      | some db =>
        by_cases he : da = db
        · subst he; simp
        · have he' : ¬ db = da := fun h => he h.symm
          simp only [if_neg he, if_neg he']
          rw [commonPrefixLen_comm (db.filter isNormalComponent)
            (da.filter isNormalComponent)]
          rw [Nat.add_comm ((db.filter isNormalComponent).length -
            commonPrefixLen (da.filter isNormalComponent) (db.filter isNormalComponent))]

/-- Claim C10: `get_scan_progress` reports `scanned_files` equal to
`total_files`; both equal the current index size, or both are zero when the
index lock cannot be read, for either value of the scanning flag. -/
theorem c10_scan_progress_consistent :
    ∀ (lockResult : Option FileSync) (flag : Bool),
      (get_scan_progress lockResult flag).scanned_files =
        (get_scan_progress lockResult flag).total_files ∧
      (get_scan_progress lockResult flag).total_files =
        (match lockResult with
         | some sync_data => sync_data.files.length
         | none => 0) ∧
      (get_scan_progress lockResult flag).is_scanning = flag := by
  intro lockResult flag
  cases lockResult <;> simp [get_scan_progress]

/-- Claim C7: when no snapshot read-lock attempt succeeds within the
bounded retry, `fuzzy_search_with_snapshot` returns the empty
`SearchResult` (no items, no scores, zero matched, zero files); the
functional embedding performs no write, so the snapshot is untouched. -/
theorem c7_timeout_returns_empty :
    ∀ (ext : ExternalOps) (tryRead : Nat → Option FileSnapshot) (query : String)
      (max_results max_threads : Nat) (current_file : Option String),
      (∀ n, n ≤ 101 → tryRead n = none) →
      fuzzy_search_with_snapshot ext tryRead query max_results max_threads
          current_file =
        { items := [], scores := [], total_matched := 0, total_files := 0 } := by
  intro ext tryRead query max_results max_threads current_file hfail
  unfold fuzzy_search_with_snapshot try_read_snapshot_with_timeout
  rw [tryReadLoop_all_fail tryRead hfail 102 0 (by omega)]

/-- Witness for C7 at the always-contended lock. -/
theorem c7_timeout_returns_empty_witness :
    fuzzy_search_with_snapshot ⟨fun _ _ _ _ => [], id⟩ (fun _ => none) "query"
        10 4 none =
      { items := [], scores := [], total_matched := 0, total_files := 0 } :=
  c7_timeout_returns_empty ⟨fun _ _ _ _ => [], id⟩ (fun _ => none) "query" 10 4
    none (fun _ _ => rfl)

/-- A scan-result file used to exhibit the unsorted-rescan divergence. -/
def scanFileB : FileItem :=
  { path := "/ws/b.txt", relative_path := "b.txt", file_name := "b.txt",
    extension := "txt", directory := "", size := 1, modified := 10,
    access_frecency_score := 0, modification_frecency_score := 0,
    total_frecency_score := 0, git_status := none, is_current_file := false }

/-- A scan-result file used to exhibit the unsorted-rescan divergence. -/
def scanFileA : FileItem :=
  { path := "/ws/a.txt", relative_path := "a.txt", file_name := "a.txt",
    extension := "txt", directory := "", size := 1, modified := 20,
    access_frecency_score := 0, modification_frecency_score := 0,
    total_frecency_score := 0, git_status := none, is_current_file := false }

theorem strLe_trans {a b c : String} (hab : strLe a b = true)
    (hbc : strLe b c = true) : strLe a c = true := by
  unfold strLe at hab hbc ⊢
  rcases h1 : cmpStr a b with _ | _ | _ <;> rw [h1] at hab
  · rcases h2 : cmpStr b c with _ | _ | _ <;> rw [h2] at hbc
    · rw [cmpStr_lt_trans h1 h2]
    · rw [cmpStr_eq_iff] at h2
      subst h2
      rw [h1]
    · simp at hbc
  · rw [cmpStr_eq_iff] at h1
    subst h1
    exact hbc
  · simp at hab

theorem strLe_total (a b : String) : strLe a b = true ∨ strLe b a = true := by
  unfold strLe
  rcases h : cmpStr a b with _ | _ | _
  · left; rfl
  · left; rfl
  · right
    rw [cmpStr_gt_iff] at h
    rw [h]

theorem filesPreSorted_of_pairwise :
    ∀ (l : List FileItem),
      List.Pairwise (fun a b => strLe a.relative_path b.relative_path = true) l →
      filesPreSorted l = true := by
  intro l
  induction l with
  | nil => intro _; rfl
  | cons a rest ih =>
    intro h
    cases rest with
    | nil => rfl
    | cons b rest' =>
      rcases List.pairwise_cons.mp h with ⟨ha, htail⟩
      simp only [filesPreSorted, ha b (by simp), Bool.true_and]
      exact ih htail

/-- The initial-scan path always hands `update_files` an input passing its
pre-sorted assertion: `prepare_files_for_update` sorts by relative path. -/
theorem prepare_files_passes_assert (scanned : List FileItem) :
    updateFilesAssert (prepare_files_for_update scanned) := by
  unfold updateFilesAssert prepare_files_for_update
  apply filesPreSorted_of_pairwise
  exact @List.sorted_mergeSort FileItem
    (fun a b => strLe a.relative_path b.relative_path)
    (fun a b c hab hbc => strLe_trans hab hbc)
    (fun a b => by
      rcases strLe_total a.relative_path b.relative_path with h | h <;> simp [h])
    scanned

/-- Claim C5: the claim requires every full scan to sort the scanned files
before `update_files`; the initial background scan does
(`prepare_files_for_update`, which always satisfies the assertion of
`update_files`), but `trigger_rescan` passes the scanner output straight to
`update_files`. On the unsorted scan result `[b.txt, a.txt]` (the parallel
walker returns files unsorted), the manual rescan leaves the index out of
order and violates the `debug_assert!` of `update_files`. -/
theorem c5_trigger_rescan_skips_sort :
    (∀ scanned : List FileItem, updateFilesAssert (prepare_files_for_update scanned)) ∧
    ¬ updateFilesAssert [scanFileB, scanFileA] ∧
    (trigger_rescan_index_update none 0 [scanFileB, scanFileA] none
        FileSync.new).files = [scanFileB, scanFileA] ∧
    ¬ strictlySortedByPath
      (trigger_rescan_index_update none 0 [scanFileB, scanFileA] none
        FileSync.new).files :=
  ⟨prepare_files_passes_assert, by decide, by decide, by decide⟩

/-- The state used to exhibit the duplicate-insert generation
counterexample: one file, generation 5. -/
def c6File : FileItem :=
  { path := "/ws/a.txt", relative_path := "a.txt", file_name := "a.txt",
    extension := "txt", directory := "", size := 1, modified := 20,
    access_frecency_score := 0, modification_frecency_score := 0,
    total_frecency_score := 0, git_status := none, is_current_file := false }

def c6State : FileSync :=
  { files := [c6File], last_update := 0, git_status_cache := none,
    scan_generation := 5 }

/-- Counterexample to claim C6 as stated: inserting a file whose relative
path is already present leaves `scan_generation` unchanged, so not every
call to a public mutation operation advances the generation. -/
theorem c6_duplicate_insert_keeps_generation :
    (insert_file_sorted c6State c6File).scan_generation =
      c6State.scan_generation := by
  decide

/-- Claim C6 (amended): `update_files` always changes `scan_generation`;
on a sorted index, `insert_file_sorted` changes it exactly when the
inserted relative path is absent, and `remove_file_by_path` exactly when
the removed path is present; a duplicate insert or a missing-path removal
leaves it unchanged. -/
theorem c6_generation_advance_amended :
    ∀ (tracker : Option FrecencyTracker) (now : Nat) (s : FileSync)
      (files : List FileItem) (cache : Option GitStatusCache) (file : FileItem)
      (path : String),
      (update_files tracker now s files cache).scan_generation ≠
        s.scan_generation ∧
      (strictlySortedByPath s.files →
        ((insert_file_sorted s file).scan_generation ≠ s.scan_generation ↔
          file.relative_path ∉ s.files.map (fun f => f.relative_path))) ∧
      (strictlySortedByPath s.files →
        ((remove_file_by_path s path).1.scan_generation ≠ s.scan_generation ↔
          path ∈ s.files.map (fun f => f.relative_path))) := by
  intro tracker now s files cache file path
  refine ⟨?_, ?_, ?_⟩
  · unfold update_files batch_update_frecency_scores
    cases tracker <;> exact wrappingSucc64_ne_self s.scan_generation
  · intro hs
    rw [← find_file_index_ok_iff s file.relative_path hs]
    have hffi : find_file_index s file.relative_path = binarySearchBy s.files
        (fun f => cmpStr f.relative_path file.relative_path) := rfl
    unfold insert_file_sorted
    rcases hres : binarySearchBy s.files
        (fun f => cmpStr f.relative_path file.relative_path) with p | i
    · constructor
      · rintro _ ⟨j, hj⟩
        rw [hffi, hres] at hj
        exact absurd hj (by simp)
      · intro _
        exact wrappingSucc64_ne_self s.scan_generation
    · constructor
      · intro hne
        exact absurd rfl hne
      · intro hnotin
        exact absurd ⟨i, by rw [hffi, hres]⟩ hnotin
  · intro hs
    rw [← find_file_index_ok_iff s path hs]
    unfold remove_file_by_path
    rcases hres : find_file_index s path with p | i
    · constructor
      · intro hne
        exact absurd rfl hne
      · rintro ⟨j, hj⟩
        exact absurd hj (by simp)
    · constructor
      · intro _
        exact ⟨i, rfl⟩
      · intro _
        exact wrappingSucc64_ne_self s.scan_generation

/-- Witness for the amended C6 on a concrete sorted one-file index: a fresh
insert and a present-path removal advance the generation, while the
counterexample input shows the stated iffs hold. -/
theorem c6_generation_advance_amended_witness :
    (update_files none 0 FileSync.new [] none).scan_generation ≠
      FileSync.new.scan_generation ∧
    (strictlySortedByPath FileSync.new.files →
      ((insert_file_sorted FileSync.new scanFileA).scan_generation ≠
          FileSync.new.scan_generation ↔
        scanFileA.relative_path ∉
          FileSync.new.files.map (fun f => f.relative_path))) ∧
    (strictlySortedByPath FileSync.new.files →
      ((remove_file_by_path FileSync.new "a.txt").1.scan_generation ≠
          FileSync.new.scan_generation ↔
        "a.txt" ∈ FileSync.new.files.map (fun f => f.relative_path))) :=
  c6_generation_advance_amended none 0 FileSync.new [] none scanFileA "a.txt"

/-- The claim's ranking relation on materialised (item, score) pairs: a
later hit never beats an earlier one on total, and on equal totals never on
file modification time. -/
def rankedBefore (p q : FileItem × Score) : Prop :=
  q.2.total < p.2.total ∨ (q.2.total = p.2.total ∧ q.1.modified ≤ p.1.modified)

theorem rankLe_true_iff (files : List FileItem) (a b : Nat × Score) :
    rankLe files a b = true ↔
      (b.2.total < a.2.total ∨ (b.2.total = a.2.total ∧
        (files.getD b.1 default).modified ≤ (files.getD a.1 default).modified)) := by
  unfold rankLe
  simp [Bool.or_eq_true, Bool.and_eq_true, decide_eq_true_eq, beq_iff_eq]

theorem rankLe_trans (files : List FileItem) (a b c : Nat × Score)
    (hab : rankLe files a b = true) (hbc : rankLe files b c = true) :
    rankLe files a c = true := by
  rw [rankLe_true_iff] at hab hbc ⊢
  omega

theorem rankLe_total (files : List FileItem) (a b : Nat × Score) :
    (rankLe files a b || rankLe files b a) = true := by
  by_cases h : rankLe files a b = true
  · rw [h, Bool.true_or]
  · have hf : rankLe files a b = false := Bool.eq_false_iff.mpr h
    rw [hf, Bool.false_or, rankLe_true_iff]
    rw [rankLe_true_iff] at h
    omega

/-- Claim C1: for every snapshot environment, query, result bound and
thread count, `fuzzy_search_with_snapshot` returns at most `max_results`
item/score pairs, sorted in descending order of `Score.total` with ties
broken by descending modification time of the corresponding `FileItem`. -/
theorem c1_fuzzy_search_sorted_truncated :
    ∀ (ext : ExternalOps) (tryRead : Nat → Option FileSnapshot) (query : String)
      (max_results max_threads : Nat) (current_file : Option String),
      (fuzzy_search_with_snapshot ext tryRead query max_results max_threads
          current_file).items.length ≤ max_results ∧
      (fuzzy_search_with_snapshot ext tryRead query max_results max_threads
          current_file).scores.length ≤ max_results ∧
      List.Pairwise rankedBefore
        ((fuzzy_search_with_snapshot ext tryRead query max_results max_threads
            current_file).items.zip
          (fuzzy_search_with_snapshot ext tryRead query max_results max_threads
            current_file).scores) := by
  intro ext tryRead query max_results max_threads current_file
  rcases hres : try_read_snapshot_with_timeout tryRead with msg | snapshot
  · simp [fuzzy_search_with_snapshot, hres]
  · have hsorted : List.Pairwise (fun a b => rankLe snapshot.files a b = true)
        ((match_and_score_files ext snapshot.files
          { query := query
            max_typos := Nat.min (Nat.max ((query.utf8ByteSize % 2 ^ 16) / 4) 2) 6
            max_threads := Nat.max max_threads 1
            current_file := current_file }).mergeSort (rankLe snapshot.files)) :=
      @List.sorted_mergeSort (Nat × Score) (rankLe snapshot.files)
        (rankLe_trans snapshot.files) (rankLe_total snapshot.files) _
    simp only [fuzzy_search_with_snapshot, hres]
    refine ⟨?_, ?_, ?_⟩
    · simp [List.length_take]
    · simp [List.length_take]
    · rw [List.zip_map']
      rw [List.pairwise_map]
      apply List.Pairwise.imp ?_ (hsorted.take)
      intro a b hab
      rw [rankLe_true_iff] at hab
      exact hab

/-- The entry-point filename set as the claim enumerates it. -/
def entryPointFilenames : List String :=
  ["mod.rs", "lib.rs", "main.rs", "index.js", "index.jsx", "index.ts",
   "index.tsx", "index.mjs", "index.cjs", "index.vue", "__init__.py",
   "__main__.py", "main.go", "main.c", "index.php", "main.rb", "index.rb"]

theorem is_special_iff (filename : String) :
    is_special_entry_point_file filename = true ↔ filename ∈ entryPointFilenames := by
  unfold is_special_entry_point_file entryPointFilenames
  simp only [Bool.or_eq_true, decide_eq_true_eq, List.mem_cons,
    List.not_mem_nil, or_false]
  tauto

/-- An external-operations instance with no matches and identity
lowercasing, used by concrete instantiations. -/
def idExternalOps : ExternalOps :=
  { match_list_parallel := fun _ _ _ _ => [], to_lowercase := id }

/-- Claim C3: for match scores in the u16 range of the external matcher,
the filename bonus follows the first-applicable cascade against the
basename — case-insensitive equality gives `(base/5)*2` and
`exact_filename`; lowercased containment gives `base/5` and
`fuzzy_filename`; membership in the seventeen entry-point filenames gives
`base*18/100`, `fuzzy_path` and the special flag; otherwise zero bonus and
`fuzzy_path` — and the assembled score's `special_filename_bonus` equals
the filename bonus exactly when the entry-point branch fired, else 0. -/
theorem c3_filename_bonus_cascade :
    (∀ (ext : ExternalOps) (query filename : String) (base : Int),
      0 ≤ base → base < 2 ^ 16 →
      calculate_filename_bonus ext query filename base =
        (if eqIgnoreAsciiCase filename query then
          (Int.tdiv base 5 * 2, "exact_filename", false)
        else if listContainsSub (ext.to_lowercase query).data
            (ext.to_lowercase filename).data then
          (Int.tdiv base 5, "fuzzy_filename", false)
        else if filename ∈ entryPointFilenames then
          (Int.tdiv (base * 18) 100, "fuzzy_path", true)
        else ((0 : Int), "fuzzy_path", false))) ∧
    (∀ (ext : ExternalOps) (context : ScoringContext) (files : List FileItem)
      (m : NeoMatch),
      (buildMatchScore ext context files m).2.special_filename_bonus =
        (if (calculate_filename_bonus ext context.query
            (files.getD m.index_in_haystack default).file_name
            ((m.score : Int))).2.2 then
          (buildMatchScore ext context files m).2.filename_bonus
        else 0)) := by
  constructor
  · intro ext query filename base h0 h16
    have hw : wrap32 (base * SPECIAL_ENTRY_BONUS_PERCENT) = base * 18 := by
      apply wrap32_eq_self
      unfold SPECIAL_ENTRY_BONUS_PERCENT inI32
      constructor <;> nlinarith
    unfold calculate_filename_bonus
    rw [hw]
    unfold EXACT_FILENAME_BONUS_DIVISOR EXACT_FILENAME_BONUS_MULTIPLIER
      FUZZY_FILENAME_BONUS_DIVISOR
    simp only [← is_special_iff]
  · intro ext context files m
    rfl

/-- Witness for C3: base 100 is in u16 range, and the query `lib` against
basename `lib.rs` lands in the substring branch with bonus 20. -/
theorem c3_filename_bonus_cascade_witness :
    (0 : Int) ≤ 100 ∧ (100 : Int) < 2 ^ 16 ∧
    calculate_filename_bonus idExternalOps "lib" "lib.rs" 100 =
      (20, "fuzzy_filename", false) := by
  refine ⟨by decide, by decide, ?_⟩
  rw [c3_filename_bonus_cascade.1 idExternalOps "lib" "lib.rs" 100 (by decide)
    (by decide)]
  decide

/-- The current-file demotion as the claim states it: −150 for the current
file when its git status is modification-kind, −300 for the current file
otherwise, 0 for every other file. -/
def c2BonusSpec (context : ScoringContext) (file : FileItem) : Int :=
  if context.current_file = some file.relative_path then
    match file.git_status with
    | some status => if is_modified_status status then -150 else -300
    | none => -300
  else 0

theorem calculate_file_bonus_eq_spec (file : FileItem) (context : ScoringContext) :
    calculate_file_bonus file context = c2BonusSpec context file := by
  unfold calculate_file_bonus c2BonusSpec
  cases hc : context.current_file with
  | none => simp
  | some current =>
    by_cases he : file.relative_path = current
    · subst he
      simp only [if_pos rfl]
      cases file.git_status with
      | none => rfl
      | some status =>
        by_cases hm : is_modified_status status <;> simp [hm]
    · have he2 : ¬ (some current = some file.relative_path) :=
        fun h => he (Option.some_injective _ h).symm
      simp [he, he2]

/-- The per-file score of the short-query fallback as the claim states it,
in exact integer arithmetic. -/
def c2ScoreSpec (context : ScoringContext) (file : FileItem) : Score :=
  { total := file.access_frecency_score + 4 * file.modification_frecency_score +
      calculate_distance_penalty context.current_file file.relative_path +
      c2BonusSpec context file
    base_score := 0
    filename_bonus := 0
    special_filename_bonus := 0
    frecency_boost := file.access_frecency_score + 4 * file.modification_frecency_score
    distance_penalty := calculate_distance_penalty context.current_file file.relative_path
    relation_bonus := 0
    match_type := "frecency" }

/-- No i64-to-i32 truncation and no saturation occurs for this file in this
context: the frecency scores and every intermediate sum of the fallback
scorer fit in i32. -/
def c2InRange (context : ScoringContext) (file : FileItem) : Prop :=
  inI32 file.access_frecency_score ∧
  inI32 file.modification_frecency_score ∧
  inI32 (file.modification_frecency_score * 4) ∧
  inI32 (file.access_frecency_score + 4 * file.modification_frecency_score) ∧
  inI32 (file.access_frecency_score + 4 * file.modification_frecency_score +
    calculate_distance_penalty context.current_file file.relative_path) ∧
  inI32 (file.access_frecency_score + 4 * file.modification_frecency_score +
    calculate_distance_penalty context.current_file file.relative_path +
    c2BonusSpec context file)

instance (context : ScoringContext) (file : FileItem) :
    Decidable (c2InRange context file) :=
  inferInstanceAs (Decidable (_ ∧ _ ∧ _ ∧ _ ∧ _ ∧ _))

/-- The arithmetic core of the amended C2: for one in-range file, the score
built by the frecency fallback equals the claim's exact-integer score. -/
theorem c2_enum_body_eq_spec (context : ScoringContext) (p : Nat × FileItem)
    (hr : c2InRange context p.2) :
    ((p.1,
      { total := satAdd32 (satAdd32 (wrap32 (wrap32 p.2.access_frecency_score +
            satMul32 (wrap32 p.2.modification_frecency_score) 4))
            (calculate_distance_penalty context.current_file p.2.relative_path))
            (calculate_file_bonus p.2 context)
        base_score := 0
        filename_bonus := 0
        special_filename_bonus := 0
        frecency_boost := wrap32 (wrap32 p.2.access_frecency_score +
          satMul32 (wrap32 p.2.modification_frecency_score) 4)
        distance_penalty :=
          calculate_distance_penalty context.current_file p.2.relative_path
        relation_bonus := 0
        match_type := "frecency" }) : Nat × Score) =
      (p.1, c2ScoreSpec context p.2) := by
  obtain ⟨h1, h2, h3, h4, h5, h6⟩ := hr
  have e2 : satMul32 (wrap32 p.2.modification_frecency_score) 4 =
      4 * p.2.modification_frecency_score := by
    rw [wrap32_eq_self h2, satMul32_eq_mul h3, mul_comm]
  have e3 : wrap32 (wrap32 p.2.access_frecency_score +
      satMul32 (wrap32 p.2.modification_frecency_score) 4) =
      p.2.access_frecency_score + 4 * p.2.modification_frecency_score := by
    rw [wrap32_eq_self h1, e2]
    exact wrap32_eq_self h4
  have e4 : satAdd32 (p.2.access_frecency_score + 4 * p.2.modification_frecency_score)
      (calculate_distance_penalty context.current_file p.2.relative_path) =
      p.2.access_frecency_score + 4 * p.2.modification_frecency_score +
        calculate_distance_penalty context.current_file p.2.relative_path :=
    satAdd32_eq_add h5
  have e5 := calculate_file_bonus_eq_spec p.2 context
  simp only [wrap32_eq_self h1, e2, wrap32_eq_self h4, e3, e4, e5,
    satAdd32_eq_add h6]
  rfl

/-- Claim C2 (amended): for queries shorter than two bytes,
`match_and_score_files` unconditionally returns exactly one result per file
in file order, each with `match_type` `frecency`; and for each file whose
i64 frecency scores and intermediate sums fit in i32 — so the `as i32`
casts and saturating operations of the source are exact — that file's
result has `frecency_boost = access + 4 × modification` and
`total = frecency_boost + distance_penalty + bonus` with the current-file
demotion bonus of the claim. -/
theorem c2_short_query_frecency_amended :
    ∀ (ext : ExternalOps) (files : List FileItem) (context : ScoringContext),
      context.query.utf8ByteSize < 2 →
      (match_and_score_files ext files context).map Prod.fst =
          List.range files.length ∧
      (∀ r ∈ match_and_score_files ext files context,
        r.2.match_type = "frecency") ∧
      (∀ i, i < files.length → c2InRange context (files.getD i default) →
        (match_and_score_files ext files context).getD i (0, default) =
          (i, c2ScoreSpec context (files.getD i default))) := by
  intro ext files context hq
  have hshort : match_and_score_files ext files context =
      score_all_by_frecency files context := by
    unfold match_and_score_files
    rw [if_pos hq]
  refine ⟨?_, ?_, ?_⟩
  · rw [hshort]
    unfold score_all_by_frecency
    rw [List.map_map, ← List.enum_map_fst files]
    apply List.map_congr_left
    intro p _
    rfl
  · intro r hr
    rw [hshort] at hr
    unfold score_all_by_frecency at hr
    rcases List.mem_map.mp hr with ⟨p, _, rfl⟩
    rfl
  · intro i hi hr
    rw [hshort]
    have hlen : i < (score_all_by_frecency files context).length := by
      unfold score_all_by_frecency
      rw [List.length_map, List.enum_length]
      exact hi
    rw [List.getD_eq_getElem _ _ hlen]
    rw [List.getD_eq_getElem files default hi] at hr ⊢
    unfold score_all_by_frecency
    rw [List.getElem_map, List.getElem_enum]
    exact c2_enum_body_eq_spec context (i, files[i]) hr

/-- The state for the C2 counterexample: an i64 access-frecency score of
2^31 is truncated to −2^31 by the `as i32` cast. -/
def c2OverflowFile : FileItem :=
  { path := "/ws/a.txt", relative_path := "a.txt", file_name := "a.txt",
    extension := "txt", directory := "", size := 1, modified := 0,
    access_frecency_score := 2 ^ 31, modification_frecency_score := 0,
    total_frecency_score := 2 ^ 31, git_status := none, is_current_file := false }

def c2Context : ScoringContext :=
  { query := "", max_typos := 2, max_threads := 1, current_file := none }

/-- Counterexample to claim C2 as stated: at an access frecency score of
2^31 (representable in the i64 field), the code reports a frecency boost of
−2^31, not the claimed `access + 4 × modification = 2^31`. -/
theorem c2_frecency_boost_truncation_counterexample :
    (match_and_score_files idExternalOps [c2OverflowFile] c2Context).map
        (fun p => p.2.frecency_boost) = [-(2 ^ 31)] ∧
    c2OverflowFile.access_frecency_score +
        4 * c2OverflowFile.modification_frecency_score = 2 ^ 31 := by
  constructor <;> decide

/-- The state for the C2 witness: an ordinary small-score current file. -/
def c2WitnessFile : FileItem :=
  { path := "/ws/a.txt", relative_path := "a.txt", file_name := "a.txt",
    extension := "txt", directory := "", size := 1, modified := 0,
    access_frecency_score := 10, modification_frecency_score := 5,
    total_frecency_score := 15, git_status := none, is_current_file := false }

def c2WitnessContext : ScoringContext :=
  { query := "", max_typos := 2, max_threads := 1, current_file := some "a.txt" }

/-- Witness for the amended C2: the empty query scores the single file by
frecency, with the −300 current-file demotion; the per-file range
hypothesis is discharged at the in-range witness file. -/
theorem c2_short_query_frecency_amended_witness :
    c2WitnessContext.query.utf8ByteSize < 2 ∧
    (match_and_score_files idExternalOps [c2WitnessFile] c2WitnessContext).map
        Prod.fst = List.range 1 ∧
    (match_and_score_files idExternalOps [c2WitnessFile] c2WitnessContext).getD
        0 (0, default) = (0, c2ScoreSpec c2WitnessContext c2WitnessFile) := by
  have h := c2_short_query_frecency_amended idExternalOps [c2WitnessFile]
    c2WitnessContext (by decide)
  exact ⟨by decide, h.1, h.2.2 0 (by decide) (by decide)⟩

/-- Claim C4: for every operation sequence in which every `update_files`
input is strictly sorted by relative path with no duplicates, the index
file sequence stays strictly ordered by relative path and free of duplicate
relative paths. -/
theorem c4_index_sorted_invariant :
    ∀ (tracker : Option FrecencyTracker) (now : Nat) (ops : List IndexOp),
      (∀ op ∈ ops, opInputSorted op) →
      strictlySortedByPath (runOps tracker now ops).files ∧
        ((runOps tracker now ops).files.map (fun f => f.relative_path)).Nodup := by
  intro tracker now ops hops
  have hs := runOps_sorted tracker now ops hops
  exact ⟨hs, strictlySorted_nodup hs⟩

/-- Witness for C4 on a concrete sequence mixing all three operations. -/
theorem c4_index_sorted_invariant_witness :
    (∀ op ∈ [IndexOp.insert scanFileB, IndexOp.update [scanFileA, scanFileB] none,
        IndexOp.insert c6File, IndexOp.remove "b.txt"], opInputSorted op) ∧
    (strictlySortedByPath (runOps none 0 [IndexOp.insert scanFileB,
        IndexOp.update [scanFileA, scanFileB] none, IndexOp.insert c6File,
        IndexOp.remove "b.txt"]).files ∧
      ((runOps none 0 [IndexOp.insert scanFileB,
          IndexOp.update [scanFileA, scanFileB] none, IndexOp.insert c6File,
          IndexOp.remove "b.txt"]).files.map (fun f => f.relative_path)).Nodup) :=
  ⟨by decide, c4_index_sorted_invariant none 0 _ (by decide)⟩

